import Mathlib

/-
Verification of the Andookie card-identification core against its
natural-language specification.

The embedding models the text-line processing pipeline of
src/andookie/src/app/api/cards/process-images/route.ts (the process-text
route: MOCK_CARD_DATABASE, CONDITIONS, parseCardLine and the POST loop)
and the OCR confidence estimator OCRService.calculateConfidence of the
unnamed OCR service module.

Text is modelled as List Char (JavaScript strings), money and scores as
exact rationals and naturals.  The single call to Math.random inside
parseCardLine is modelled by an explicit rational argument; the POST loop
threads a stream of such values.
-/

namespace Andookie

/-- Text of the JavaScript program, modelled as a list of characters. -/
abbrev Str := List Char

/-- The space character, used by the word splitter of parseCardLine. -/
def spaceChar : Char := Char.ofNat 32

/-- Lowercasing a string, modelling String.prototype.toLowerCase on the
ASCII text this program handles. -/
def lowerS (s : Str) : Str := s.map Char.toLower

/-- Whether the pattern occurs as a contiguous substring of the text,
modelling String.prototype.includes (an empty pattern always occurs). -/
def containsSub (hay pat : Str) : Bool :=
  match hay with
  | [] => pat.isEmpty
  | _ :: rest => pat.isPrefixOf hay || containsSub rest pat

/-- Trimming leading and trailing whitespace, modelling String.prototype.trim. -/
def trimS (s : Str) : Str :=
  ((s.dropWhile Char.isWhitespace).reverse.dropWhile Char.isWhitespace).reverse

/-- Splitting on single spaces, modelling String.prototype.split(" "):
every space separates pieces and empty pieces are kept. -/
def splitSpaces : Str → List Str
  | [] => [[]]
  | c :: rest =>
    if c = spaceChar then [] :: splitSpaces rest
    else
      match splitSpaces rest with
      | [] => [[c]]
      | w :: ws => (c :: w) :: ws

/-- A catalog entry of MOCK_CARD_DATABASE. -/
structure Entry where
  id : Nat
  name : Str
  set : Str
  number : Str
  marketPrice : ℚ
  variants : List Str
deriving DecidableEq, Repr

/-- Catalog entry 1 of MOCK_CARD_DATABASE. -/
def charizardEntry : Entry :=
  { id := 1, name := "Charizard".toList, set := "Base Set".toList,
    number := "4/102".toList, marketPrice := 450,
    variants := ["Near Mint".toList, "Lightly Played".toList,
                 "Moderately Played".toList, "Heavily Played".toList] }

/-- Catalog entry 2 of MOCK_CARD_DATABASE. -/
def pikachuVmaxEntry : Entry :=
  { id := 2, name := "Pikachu VMAX".toList, set := "Vivid Voltage".toList,
    number := "044/185".toList, marketPrice := 85,
    variants := ["Near Mint".toList, "Lightly Played".toList,
                 "Moderately Played".toList, "Heavily Played".toList] }

/-- Catalog entry 3 of MOCK_CARD_DATABASE. -/
def blastoiseEntry : Entry :=
  { id := 3, name := "Blastoise".toList, set := "Base Set".toList,
    number := "2/102".toList, marketPrice := 180,
    variants := ["Near Mint".toList, "Lightly Played".toList,
                 "Moderately Played".toList, "Heavily Played".toList] }

/-- Catalog entry 4 of MOCK_CARD_DATABASE. -/
def venusaurEntry : Entry :=
  { id := 4, name := "Venusaur".toList, set := "Base Set".toList,
    number := "15/102".toList, marketPrice := 120,
    variants := ["Near Mint".toList, "Lightly Played".toList,
                 "Moderately Played".toList, "Heavily Played".toList] }

/-- Catalog entry 5 of MOCK_CARD_DATABASE. -/
def pikachuEntry : Entry :=
  { id := 5, name := "Pikachu".toList, set := "Base Set".toList,
    number := "58/102".toList, marketPrice := 35,
    variants := ["Near Mint".toList, "Lightly Played".toList,
                 "Moderately Played".toList, "Heavily Played".toList] }

/-- Catalog entry 6 of MOCK_CARD_DATABASE. -/
def alakazamEntry : Entry :=
  { id := 6, name := "Alakazam".toList, set := "Base Set".toList,
    number := "1/102".toList, marketPrice := 90,
    variants := ["Near Mint".toList, "Lightly Played".toList,
                 "Moderately Played".toList, "Heavily Played".toList] }

/-- The literal catalog array MOCK_CARD_DATABASE in its source order. -/
def MOCK_CARD_DATABASE : List Entry :=
  [charizardEntry, pikachuVmaxEntry, blastoiseEntry,
   venusaurEntry, pikachuEntry, alakazamEntry]

/-- The CONDITIONS object: insertion-ordered keyword/condition pairs. -/
def CONDITIONS : List (Str × Str) :=
  [("mint".toList, "Mint".toList),
   ("near mint".toList, "Near Mint".toList),
   ("nm".toList, "Near Mint".toList),
   ("lightly played".toList, "Lightly Played".toList),
   ("lp".toList, "Lightly Played".toList),
   ("moderately played".toList, "Moderately Played".toList),
   ("mp".toList, "Moderately Played".toList),
   ("heavily played".toList, "Heavily Played".toList),
   ("hp".toList, "Heavily Played".toList),
   ("damaged".toList, "Heavily Played".toList)]

/-- First table entry whose keyword occurs in the lowered line, modelling
the for-of loop with break over Object.entries(CONDITIONS). -/
def condScan (tbl : List (Str × Str)) (lowerLine : Str) : Option Str :=
  match tbl with
  | [] => none
  | (k, v) :: t => if containsSub lowerLine k then some v else condScan t lowerLine

/-- The extracted condition of parseCardLine: first matching keyword of
CONDITIONS, defaulting to Near Mint. -/
def extractCondition (lowerLine : Str) : Str :=
  (condScan CONDITIONS lowerLine).getD "Near Mint".toList

/-- A maximal digit run followed by a slash and a maximal digit run, at the
start of the text: the fraction alternative of the card-number regex. -/
def fracAt (l : Str) : Option Str :=
  let d1 := l.takeWhile Char.isDigit
  let r1 := l.dropWhile Char.isDigit
  if d1.isEmpty then none
  else
    match r1 with
    | '/' :: r2 =>
      let d2 := r2.takeWhile Char.isDigit
      if d2.isEmpty then none else some (d1 ++ '/' :: d2)
    | _ => none

/-- A hash sign followed by a digit run, at the start of the text: the hash
alternative of the card-number regex, with the hash already stripped as by
the replace call of parseCardLine. -/
def hashAt : Str → Option Str
  | '#' :: rest =>
    let d := rest.takeWhile Char.isDigit
    if d.isEmpty then none else some d
  | _ => none

/-- Leftmost match of the card-number regex (fraction form or hash form),
with the hash prefix stripped. -/
def findNumber : Str → Option Str
  | [] => none
  | c :: rest =>
    match fracAt (c :: rest) with
    | some n => some n
    | none =>
      match hashAt (c :: rest) with
      | some n => some n
      | none => findNumber rest

/-- The integer match score of one catalog entry against a lowered line and
an optional extracted card number, as computed inside the catalog loop of
parseCardLine. -/
def entryScore (lowerLine : Str) (num : Option Str) (e : Entry) : Nat :=
  (if containsSub lowerLine (lowerS e.name) then 3 else 0)
  + (if containsSub lowerLine (lowerS e.set) then 2 else 0)
  + (match num with
     | some n => if containsSub e.number n then 2 else 0
     | none => 0)
  + ((splitSpaces (lowerS e.name)).filter (fun w => containsSub lowerLine w)).length

/-- The best-match fold of parseCardLine: starting from bestMatch null and
highestScore 0, each entry with a strictly higher score replaces the
current best. -/
def scanBest (f : Entry → Nat) : List Entry → Option Entry × Nat → Option Entry × Nat
  | [], st => st
  | e :: rest, (acc, hi) =>
    if hi < f e then scanBest f rest (some e, f e) else scanBest f rest (acc, hi)

/-- The selected entry of parseCardLine: the fold result when it is non-null
and its score reaches the acceptance threshold 2. -/
def matchSelect (cat : List Entry) (f : Entry → Nat) : Option Entry :=
  match scanBest f cat (none, 0) with
  | (some e, hi) => if 2 ≤ hi then some e else none
  | (none, _) => none

/-- The conditionMultipliers table of parseCardLine. -/
def conditionMultipliers : List (Str × ℚ) :=
  [("Mint".toList, 11/10),
   ("Near Mint".toList, 1),
   ("Lightly Played".toList, 4/5),
   ("Moderately Played".toList, 3/5),
   ("Heavily Played".toList, 2/5)]

/-- Association-list lookup by string key. -/
def assocFind {α : Type} : List (Str × α) → Str → Option α
  | [], _ => none
  | (k, v) :: t, s => if k = s then some v else assocFind t s

/-- Rounding to 2 decimal places, half up: Math.round(x * 100) / 100. -/
def round2 (q : ℚ) : ℚ := (Int.floor (q * 100 + 1/2) : ℚ) / 100

/-- The pricing step of parseCardLine: the market price at the given
condition and the 70 percent offer, each rounded to cents.  It is defined
whenever the condition has a multiplier; the condition is never checked
against the entry variants field. -/
def priceFor (e : Entry) (cond : Str) : Option (ℚ × ℚ) :=
  (assocFind conditionMultipliers cond).map fun m =>
    (round2 (e.marketPrice * m), round2 (e.marketPrice * m * (7/10)))

/-- An identified card as returned by parseCardLine. -/
structure Card where
  id : ℚ
  name : Str
  set : Str
  number : Str
  condition : Str
  marketPrice : ℚ
  ourOffer : ℚ
  confidence : ℚ
  originalText : Str
deriving DecidableEq, Repr

/-- The rational-free front of parseCardLine: trimming, condition and
card-number extraction and best-match selection.  On success it returns the
trimmed line, the selected entry, its score and the condition string. -/
def parseSelect (line : Str) : Option (Str × Entry × Nat × Str) :=
  let trimmed := trimS line
  if trimmed.isEmpty then none
  else
    let lowerLine := lowerS trimmed
    let condition := extractCondition lowerLine
    let num := findNumber trimmed
    let st := scanBest (entryScore lowerLine num) MOCK_CARD_DATABASE (none, 0)
    match st.1 with
    | none => none
    | some e => if 2 ≤ st.2 then some (trimmed, e, st.2, condition) else none

/-- parseCardLine of the process-text route: selection followed by pricing.
The argument r is the value drawn from Math.random for the id of the
returned card. -/
def parseCardLine (r : ℚ) (line : Str) : Option Card :=
  match parseSelect line with
  | none => none
  | some (trimmed, e, s, condition) =>
    match priceFor e condition with
    | some (mp, off) =>
      some { id := (e.id : ℚ) + r, name := e.name, set := e.set,
             number := e.number, condition := condition,
             marketPrice := mp, ourOffer := off,
             confidence := (s : ℚ) / 5, originalText := trimmed }
    | none => none

/-- The per-line loop of the POST handler: matched cards in order on the
left, trimmed unmatched lines in order on the right.  The rand stream
supplies the Math.random draw of each successful parseCardLine call. -/
def processLines (rand : Nat → ℚ) : Nat → List Str → List Card × List Str
  | _, [] => ([], [])
  | k, l :: ls =>
    match parseCardLine (rand k) l with
    | some c =>
      let res := processLines rand (k + 1) ls
      (c :: res.1, res.2)
    | none =>
      let res := processLines rand k ls
      (res.1, trimS l :: res.2)

/-- The POST handler loop applied to a fragment sequence, starting on a
fresh random stream. -/
def POSTprocess (rand : Nat → ℚ) (lines : List Str) : List Card × List Str :=
  processLines rand 0 lines

/-- The maximum entry score over a catalog, 0 for the empty catalog. -/
def bestScore (f : Entry → Nat) (cat : List Entry) : Nat :=
  cat.foldr (fun e m => max (f e) m) 0

/-- Modelled from the spec words for the Catalog Matcher selection rule:
when the maximum score over all entries reaches the threshold 2, the first
entry in catalog iteration order attaining that maximum; otherwise none. -/
def specFirstArgmax (cat : List Entry) (f : Entry → Nat) : Option Entry :=
  if 2 ≤ bestScore f cat then cat.find? (fun e => f e == bestScore f cat)
  else none

/-- A card with its random-suffixed id erased, for comparing process runs
up to id generation. -/
def stripId (c : Card) : Card := { c with id := 0 }

/-- JavaScript truthiness of an optional string: present and non-empty. -/
def truthy (o : Option Str) : Bool :=
  match o with
  | some s => !s.isEmpty
  | none => false

/-- The knownPokemon allow-list of OCRService.calculateConfidence. -/
def knownPokemon : List Str :=
  ["charizard".toList, "pikachu".toList, "blastoise".toList, "venusaur".toList,
   "alakazam".toList, "mewtwo".toList, "mew".toList, "dragonite".toList,
   "gyarados".toList, "machamp".toList, "gengar".toList, "articuno".toList,
   "zapdos".toList, "moltres".toList]

/-- OCRService.calculateConfidence: additive confidence of an OCR-derived
detection, capped at 1. -/
def calculateConfidence (cardName setName cardNumber : Option Str) : ℚ :=
  let c : ℚ := 1/10
  let c := if truthy cardName then
      c + 2/5
        + (if knownPokemon.any (fun p => containsSub (lowerS (cardName.getD [])) p)
           then 1/5 else 0)
    else c
  let c := if truthy setName then c + 3/10 else c
  let c := if truthy cardNumber then
      c + 1/5 + (if containsSub (cardNumber.getD []) ['/'] then 1/10 else 0)
    else c
  min c 1

/-- Modelled from the claim words for the confidence estimator: additive
indicator formula whose known-name bonus requires the lowercased name to be
a member of the allow-list. -/
def claimConfidenceMember (cardName setName cardNumber : Option Str) : ℚ :=
  min (1/10
    + (if truthy cardName then 2/5 else 0)
    + (if truthy cardName ∧ lowerS (cardName.getD []) ∈ knownPokemon then 1/5 else 0)
    + (if truthy setName then 3/10 else 0)
    + (if truthy cardNumber then 1/5 else 0)
    + (if truthy cardNumber ∧ containsSub (cardNumber.getD []) ['/'] then 1/10 else 0)) 1

/-- The amended confidence formula: as the claim formula, but the
known-name bonus holds when the lowercased name contains an allow-list
entry as a substring, as the code computes. -/
def claimConfidenceContain (cardName setName cardNumber : Option Str) : ℚ :=
  min (1/10
    + (if truthy cardName then 2/5 else 0)
    + (if truthy cardName ∧ knownPokemon.any (fun p => containsSub (lowerS (cardName.getD [])) p)
       then 1/5 else 0)
    + (if truthy setName then 3/10 else 0)
    + (if truthy cardNumber then 1/5 else 0)
    + (if truthy cardNumber ∧ containsSub (cardNumber.getD []) ['/'] then 1/10 else 0)) 1

/-! Helper lemmas. -/

lemma bestScore_nil (f : Entry → Nat) : bestScore f [] = 0 := rfl

lemma bestScore_cons (f : Entry → Nat) (e : Entry) (cat : List Entry) :
    bestScore f (e :: cat) = max (f e) (bestScore f cat) := rfl

lemma find?_congr {α : Type} (p q : α → Bool) :
    ∀ l : List α, (∀ a ∈ l, p a = q a) → l.find? p = l.find? q := by
  intro l
  induction l with
  | nil => intro _; rfl
  | cons a t ih =>
    intro h
    have ha : p a = q a := h a (List.mem_cons_self a t)
    cases hqa : q a with
    | true =>
      rw [List.find?_cons_of_pos _ (ha.trans hqa), List.find?_cons_of_pos _ hqa]
    | false =>
      rw [List.find?_cons_of_neg _ (by simp [ha, hqa]), List.find?_cons_of_neg _ (by simp [hqa]),
        ih (fun b hb => h b (List.mem_cons_of_mem a hb))]

/-- Characterization of the best-match fold: the final score is the maximum
of the running score and all entry scores, and the final best entry is the
first one strictly exceeding the running score and attaining the maximum. -/
lemma scanBest_eq (f : Entry → Nat) :
    ∀ (cat : List Entry) (acc : Option Entry) (hi : Nat),
      scanBest f cat (acc, hi) =
        (if bestScore f cat ≤ hi then acc
         else cat.find? (fun e => decide (hi < f e) && (f e == bestScore f cat)),
         max hi (bestScore f cat)) := by
  intro cat
  induction cat with
  | nil => intro acc hi; simp [scanBest, bestScore_nil]
  | cons e rest ih =>
    intro acc hi
    simp only [scanBest, bestScore_cons]
    by_cases hcase : hi < f e
    · rw [if_pos hcase, ih]
      by_cases hBs : bestScore f rest ≤ f e
      · have hmax : max (f e) (bestScore f rest) = f e := by omega
        rw [hmax, if_pos hBs, if_neg (by omega),
          List.find?_cons_of_pos _ (by simp [hcase])]
        exact Prod.ext rfl (by omega)
      · have hmax : max (f e) (bestScore f rest) = bestScore f rest := by omega
        have hne : (f e == bestScore f rest) = false := by
          simp only [beq_eq_false_iff_ne, ne_eq]; omega
        have hfc : (rest.find? fun a => decide (f e < f a) && (f a == bestScore f rest))
            = rest.find? fun a => decide (hi < f a) && (f a == bestScore f rest) := by
          apply find?_congr
          intro a _
          by_cases hfa : f a = bestScore f rest
          · have h1 : hi < bestScore f rest := by omega
            have h2 : f e < bestScore f rest := by omega
            simp [hfa, h1, h2]
          · have hne2 : (f a == bestScore f rest) = false := by
              simp only [beq_eq_false_iff_ne, ne_eq]; omega
            simp [hne2]
        rw [hmax, if_neg hBs, if_neg (by omega),
          List.find?_cons_of_neg _ (by simp [hne]), hfc]
        exact Prod.ext rfl (by omega)
    · rw [if_neg hcase, ih]
      by_cases hBh : bestScore f rest ≤ hi
      · have hmax : max (f e) (bestScore f rest) ≤ hi := by omega
        rw [if_pos hBh, if_pos hmax]
        exact Prod.ext rfl (by omega)
      · have hmax : max (f e) (bestScore f rest) = bestScore f rest := by omega
        rw [hmax, if_neg hBh, if_neg hBh,
          List.find?_cons_of_neg _ (by simp; omega)]

/-- The selection of parseCardLine equals the specification selection rule:
first entry attaining the maximum score when that maximum is at least 2. -/
lemma matchSelect_eq_spec (cat : List Entry) (f : Entry → Nat) :
    matchSelect cat f = specFirstArgmax cat f := by
  unfold matchSelect specFirstArgmax
  rw [scanBest_eq]
  have hcong : 2 ≤ bestScore f cat →
      cat.find? (fun e => decide (0 < f e) && (f e == bestScore f cat))
        = cat.find? (fun e => f e == bestScore f cat) := by
    intro h2
    apply find?_congr
    intro a _
    by_cases hfa : f a = bestScore f cat
    · have h1 : 0 < bestScore f cat := by omega
      simp [hfa, h1]
    · have hne : (f a == bestScore f cat) = false := by
        simp only [beq_eq_false_iff_ne, ne_eq]; omega
      simp [hne]
  by_cases hB : bestScore f cat ≤ 0
  · have h0 : bestScore f cat = 0 := by omega
    simp [h0]
  · rw [if_neg hB]
    by_cases h2 : 2 ≤ bestScore f cat
    · rw [hcong h2, if_pos h2]
      cases hfind : cat.find? (fun e => f e == bestScore f cat) with
      | none => simp [hfind]
      | some e => simp [hfind, Nat.zero_max, h2]
    · rw [if_neg h2]
      cases hfind : cat.find? (fun e => decide (0 < f e) && (f e == bestScore f cat)) with
      | none => simp [hfind]
      | some e => simp [hfind, Nat.zero_max, h2]

/-- The entry selected by the fold belongs to the catalog unless it was the
starting accumulator. -/
lemma scanBest_fst_mem (f : Entry → Nat) :
    ∀ (cat : List Entry) (acc : Option Entry) (hi : Nat) (e : Entry),
      (scanBest f cat (acc, hi)).1 = some e → e ∈ cat ∨ acc = some e := by
  intro cat
  induction cat with
  | nil => intro acc hi e h; exact Or.inr h
  | cons a rest ih =>
    intro acc hi e h
    simp only [scanBest] at h
    by_cases hcase : hi < f a
    · rw [if_pos hcase] at h
      rcases ih (some a) (f a) e h with hmem | hacc
      · exact Or.inl (List.mem_cons_of_mem a hmem)
      · exact Or.inl (by simp at hacc; simp [hacc])
    · rw [if_neg hcase] at h
      rcases ih acc hi e h with hmem | hacc
      · exact Or.inl (List.mem_cons_of_mem a hmem)
      · exact Or.inr hacc

/-- A value found in an association list is one of its values. -/
lemma assocFind_val_mem {α : Type} :
    ∀ (tbl : List (Str × α)) (s : Str) (v : α),
      assocFind tbl s = some v → v ∈ tbl.map Prod.snd := by
  intro tbl
  induction tbl with
  | nil => intro s v h; exact absurd h (by simp [assocFind])
  | cons p t ih =>
    intro s v h
    rcases p with ⟨k, w⟩
    simp only [assocFind] at h
    by_cases hk : k = s
    · rw [if_pos hk] at h
      injection h with h1
      rw [List.map_cons, h1]
      exact List.mem_cons_self _ _
    · rw [if_neg hk] at h
      rw [List.map_cons]
      exact List.mem_cons_of_mem _ (ih s v h)

/-- A result of the keyword scan is one of the table values. -/
lemma condScan_mem :
    ∀ (tbl : List (Str × Str)) (lw : Str) (v : Str),
      condScan tbl lw = some v → v ∈ tbl.map Prod.snd := by
  intro tbl
  induction tbl with
  | nil => intro lw v h; exact absurd h (by simp [condScan])
  | cons p t ih =>
    intro lw v h
    rcases p with ⟨k, w⟩
    simp only [condScan] at h
    by_cases hc : containsSub lw k = true
    · rw [if_pos hc] at h
      injection h with h1
      rw [List.map_cons, h1]
      exact List.mem_cons_self _ _
    · rw [if_neg hc] at h
      rw [List.map_cons]
      exact List.mem_cons_of_mem _ (ih lw v h)

/-- The extracted condition is the default or one of the table values. -/
lemma extractCondition_mem (lw : Str) :
    extractCondition lw ∈ "Near Mint".toList :: CONDITIONS.map Prod.snd := by
  unfold extractCondition
  cases hsc : condScan CONDITIONS lw with
  | none => simp
  | some v =>
    simp only [Option.getD_some]
    exact List.mem_cons_of_mem _ (condScan_mem CONDITIONS lw v hsc)

/-- Every condition string the normalizer can produce has a multiplier. -/
lemma multiplier_defined :
    ∀ c ∈ "Near Mint".toList :: CONDITIONS.map Prod.snd,
      (assocFind conditionMultipliers c).isSome = true := by
  decide

/-- Inversion of a successful selection stage. -/
lemma parseSelect_some {l t : Str} {e : Entry} {s : Nat} {cond : Str}
    (h : parseSelect l = some (t, e, s, cond)) :
    t = trimS l ∧ cond = extractCondition (lowerS (trimS l)) ∧
    (scanBest (entryScore (lowerS (trimS l)) (findNumber (trimS l)))
        MOCK_CARD_DATABASE (none, 0)).1 = some e ∧
    s = (scanBest (entryScore (lowerS (trimS l)) (findNumber (trimS l)))
        MOCK_CARD_DATABASE (none, 0)).2 ∧
    2 ≤ s := by
  simp only [parseSelect] at h
  split at h
  · exact absurd h (by simp)
  · split at h
    next heq => exact absurd h (by simp)
    next e1 heq =>
      split at h
      next h2 =>
        simp only [Option.some.injEq, Prod.mk.injEq] at h
        obtain ⟨h1, h3, h4, h5⟩ := h
        subst h1; subst h3; subst h4; subst h5
        exact ⟨rfl, rfl, heq, rfl, h2⟩
      next h2 => exact absurd h (by simp)

/-- Pricing succeeds for every condition the normalizer can produce. -/
lemma priceFor_isSome (e : Entry) (c : Str)
    (hc : c ∈ "Near Mint".toList :: CONDITIONS.map Prod.snd) :
    (priceFor e c).isSome = true := by
  have hm := multiplier_defined c hc
  cases haf : assocFind conditionMultipliers c with
  | none => rw [haf] at hm; simp at hm
  | some m => simp [priceFor, haf]

/-- A parse succeeds exactly when the selection stage succeeds; the random
draw plays no role. -/
lemma parseCardLine_isSome (r : ℚ) (l : Str) :
    (parseCardLine r l).isSome = (parseSelect l).isSome := by
  unfold parseCardLine
  cases hps : parseSelect l with
  | none => rfl
  | some q =>
    rcases q with ⟨t, e, s, cond⟩
    obtain ⟨-, hcond, -, -, -⟩ := parseSelect_some hps
    have hp : (priceFor e cond).isSome = true :=
      priceFor_isSome e cond (hcond ▸ extractCondition_mem (lowerS (trimS l)))
    dsimp only
    cases hpf : priceFor e cond with
    | none => rw [hpf] at hp; simp at hp
    | some p => rcases p with ⟨mp, off⟩; rfl

/-- The source text recorded on a parsed card is the trimmed input line. -/
lemma parseCardLine_origText {r : ℚ} {l : Str} {c : Card}
    (h : parseCardLine r l = some c) : c.originalText = trimS l := by
  unfold parseCardLine at h
  cases hps : parseSelect l with
  | none => rw [hps] at h; exact absurd h (by simp)
  | some q =>
    rcases q with ⟨t, e, s, cond⟩
    obtain ⟨ht, -, -, -, -⟩ := parseSelect_some hps
    rw [hps] at h
    dsimp only at h
    cases hpf : priceFor e cond with
    | none => rw [hpf] at h; exact absurd h (by simp)
    | some p =>
      rcases p with ⟨mp, off⟩
      rw [hpf] at h
      dsimp only at h
      injection h with h1
      rw [← h1, ht]

/-- Two parses of the same line differ at most in the id field. -/
lemma parseCardLine_strip (r r1 : ℚ) (l : Str) :
    (parseCardLine r l).map stripId = (parseCardLine r1 l).map stripId := by
  unfold parseCardLine
  cases parseSelect l with
  | none => rfl
  | some q =>
    rcases q with ⟨t, e, s, cond⟩
    dsimp only
    cases priceFor e cond with
    | none => rfl
    | some p => rcases p with ⟨mp, off⟩; rfl

/-- The loop of the POST handler routes each line to the matched side or
the unmatched side according to the selection stage, preserving order. -/
lemma processLines_eq (rand : Nat → ℚ) :
    ∀ (k : Nat) (lines : List Str),
      (processLines rand k lines).1.map Card.originalText
          = (lines.filter fun l => (parseSelect l).isSome).map trimS
      ∧ (processLines rand k lines).2
          = (lines.filter fun l => (parseSelect l).isNone).map trimS := by
  intro k lines
  induction lines generalizing k with
  | nil => exact ⟨rfl, rfl⟩
  | cons l ls ih =>
    cases hsel : parseSelect l with
    | none =>
      have hp : parseCardLine (rand k) l = none := by
        unfold parseCardLine; rw [hsel]
      obtain ⟨ih1, ih2⟩ := ih k
      constructor
      · simp [processLines, hp, List.filter_cons, hsel, ih1]
      · simp [processLines, hp, List.filter_cons, hsel, ih2]
    | some q =>
      have hps : (parseCardLine (rand k) l).isSome = true := by
        rw [parseCardLine_isSome, hsel]; rfl
      obtain ⟨c, hp⟩ := Option.isSome_iff_exists.mp hps
      have horig : c.originalText = trimS l := parseCardLine_origText hp
      obtain ⟨ih1, ih2⟩ := ih (k + 1)
      constructor
      · simp [processLines, hp, List.filter_cons, hsel, ih1, horig]
      · simp [processLines, hp, List.filter_cons, hsel, ih2]

/-- A line whose selection fails lands in the unmatched output. -/
lemma processLines_unmatched_mem (rand : Nat → ℚ) :
    ∀ (k : Nat) (lines : List Str) (l : Str),
      l ∈ lines → parseSelect l = none →
      trimS l ∈ (processLines rand k lines).2 := by
  intro k lines
  induction lines generalizing k with
  | nil => intro l h; exact absurd h (List.not_mem_nil l)
  | cons a ls ih =>
    intro l hmem hsel
    rcases List.mem_cons.mp hmem with rfl | htail
    · have hp : parseCardLine (rand k) l = none := by
        unfold parseCardLine; rw [hsel]
      simp [processLines, hp]
    · cases hp : parseCardLine (rand k) a with
      | none =>
        simp only [processLines, hp]
        exact List.mem_cons_of_mem _ (ih k l htail hsel)
      | some c =>
        simp only [processLines, hp]
        exact ih (k + 1) l htail hsel

/-- A bound holding for every entry bounds the best score. -/
lemma bestScore_lt (f : Entry → Nat) (cat : List Entry) (n : Nat)
    (hn : 0 < n) (h : ∀ e ∈ cat, f e < n) : bestScore f cat < n := by
  induction cat with
  | nil => rw [bestScore_nil]; exact hn
  | cons e rest ih =>
    rw [bestScore_cons]
    have h1 := h e (List.mem_cons_self e rest)
    have h2 := ih fun a ha => h a (List.mem_cons_of_mem e ha)
    omega

/-- When every entry scores below the threshold, the selection fails. -/
lemma parseSelect_none_of_low (l : Str)
    (h : ∀ e ∈ MOCK_CARD_DATABASE,
      entryScore (lowerS (trimS l)) (findNumber (trimS l)) e < 2) :
    parseSelect l = none := by
  simp only [parseSelect]
  by_cases h0 : (trimS l).isEmpty = true
  · simp [h0]
  · rw [if_neg h0, scanBest_eq]
    have hB := bestScore_lt (entryScore (lowerS (trimS l)) (findNumber (trimS l)))
      MOCK_CARD_DATABASE 2 (by omega) h
    by_cases h1 : bestScore (entryScore (lowerS (trimS l)) (findNumber (trimS l)))
        MOCK_CARD_DATABASE ≤ 0
    · have h00 : bestScore (entryScore (lowerS (trimS l)) (findNumber (trimS l)))
          MOCK_CARD_DATABASE = 0 := Nat.le_zero.mp h1
      simp [h00]
    · rw [if_neg h1]
      cases hfind : MOCK_CARD_DATABASE.find? (fun e =>
          decide (0 < entryScore (lowerS (trimS l)) (findNumber (trimS l)) e)
            && (entryScore (lowerS (trimS l)) (findNumber (trimS l)) e
                == bestScore (entryScore (lowerS (trimS l)) (findNumber (trimS l)))
                     MOCK_CARD_DATABASE)) with
      | none => simp [hfind]
      | some e => simp only [hfind]; rw [if_neg (by omega)]

/-- For every catalog price and multiplier, rounding the condition price
before applying the 70 percent factor gives the same cents as rounding only
at the end. -/
lemma round_before_or_after :
    ∀ e ∈ MOCK_CARD_DATABASE, ∀ m ∈ conditionMultipliers.map Prod.snd,
      round2 (e.marketPrice * m * (7/10)) = round2 (round2 (e.marketPrice * m) * (7/10)) := by
  intro e he m hm
  fin_cases he <;> fin_cases hm <;>
    norm_num [round2, charizardEntry, pikachuVmaxEntry, blastoiseEntry,
      venusaurEntry, pikachuEntry, alakazamEntry]

/-- Full inversion of a successful parse. -/
lemma parseCardLine_some_inv {r : ℚ} {l : Str} {c : Card}
    (h : parseCardLine r l = some c) :
    ∃ t e s cond mp off, parseSelect l = some (t, e, s, cond)
      ∧ priceFor e cond = some (mp, off)
      ∧ c = { id := (e.id : ℚ) + r, name := e.name, set := e.set,
              number := e.number, condition := cond, marketPrice := mp,
              ourOffer := off, confidence := (s : ℚ) / 5, originalText := t } := by
  unfold parseCardLine at h
  cases hps : parseSelect l with
  | none => rw [hps] at h; exact absurd h (by simp)
  | some q =>
    rcases q with ⟨t, e, s, cond⟩
    rw [hps] at h
    dsimp only at h
    cases hpf : priceFor e cond with
    | none => rw [hpf] at h; exact absurd h (by simp)
    | some p =>
      rcases p with ⟨mp, off⟩
      rw [hpf] at h
      dsimp only at h
      injection h with h1
      exact ⟨t, e, s, cond, mp, off, rfl, hpf, h1.symm⟩

/-- Inversion of a successful pricing step. -/
lemma priceFor_some {e : Entry} {cond : Str} {mp off : ℚ}
    (h : priceFor e cond = some (mp, off)) :
    ∃ m, assocFind conditionMultipliers cond = some m
      ∧ mp = round2 (e.marketPrice * m)
      ∧ off = round2 (e.marketPrice * m * (7/10)) := by
  unfold priceFor at h
  cases haf : assocFind conditionMultipliers cond with
  | none => rw [haf] at h; exact absurd h (by simp)
  | some m =>
    rw [haf] at h
    simp only [Option.map_some', Option.some.injEq, Prod.mk.injEq] at h
    exact ⟨m, rfl, h.1.symm, h.2.symm⟩

/-- Two runs of the loop agree on everything except the id fields of the
matched cards. -/
lemma processLines_strip (rand1 rand2 : Nat → ℚ) :
    ∀ (k1 k2 : Nat) (lines : List Str),
      (processLines rand1 k1 lines).1.map stripId
          = (processLines rand2 k2 lines).1.map stripId
      ∧ (processLines rand1 k1 lines).2 = (processLines rand2 k2 lines).2 := by
  intro k1 k2 lines
  induction lines generalizing k1 k2 with
  | nil => exact ⟨rfl, rfl⟩
  | cons l ls ih =>
    have hstrip := parseCardLine_strip (rand1 k1) (rand2 k2) l
    cases hp1 : parseCardLine (rand1 k1) l with
    | none =>
      have hp2 : parseCardLine (rand2 k2) l = none := by
        rw [hp1] at hstrip
        cases hp2x : parseCardLine (rand2 k2) l with
        | none => rfl
        | some c2 => rw [hp2x] at hstrip; simp at hstrip
      obtain ⟨ih1, ih2⟩ := ih k1 k2
      simp [processLines, hp1, hp2, ih1, ih2]
    | some c =>
      rw [hp1] at hstrip
      have hex : ∃ c2, parseCardLine (rand2 k2) l = some c2 ∧ stripId c = stripId c2 := by
        cases hp2x : parseCardLine (rand2 k2) l with
        | none => rw [hp2x] at hstrip; simp at hstrip
        | some c2 =>
          rw [hp2x] at hstrip
          simp only [Option.map_some', Option.some.injEq] at hstrip
          exact ⟨c2, rfl, hstrip⟩
      obtain ⟨c2, hp2, hsc⟩ := hex
      obtain ⟨ih1, ih2⟩ := ih (k1 + 1) (k2 + 1)
      simp [processLines, hp1, hp2, ih1, ih2, hsc]

/-- Every line goes to exactly one side: the filtered lengths add up. -/
lemma filter_lengths :
    ∀ lines : List Str,
      (lines.filter fun l => (parseSelect l).isSome).length
        + (lines.filter fun l => (parseSelect l).isNone).length = lines.length := by
  intro lines
  induction lines with
  | nil => rfl
  | cons l ls ih =>
    cases hsel : parseSelect l <;>
      simp [List.filter_cons, hsel, Nat.add_assoc, Nat.add_comm, Nat.add_left_comm] <;> omega

/-- Concrete evaluation: parsing the line Charizard Base Set at any random
draw yields the Charizard entry at the default Near Mint condition. -/
lemma parse_charizard_base_set (r : ℚ) :
    parseCardLine r "Charizard Base Set".toList =
      some { id := 1 + r, name := "Charizard".toList, set := "Base Set".toList,
             number := "4/102".toList, condition := "Near Mint".toList,
             marketPrice := 450, ourOffer := 315, confidence := 6/5,
             originalText := "Charizard Base Set".toList } := by
  have h : parseSelect "Charizard Base Set".toList =
      some ("Charizard Base Set".toList, charizardEntry, 6, "Near Mint".toList) := by
    decide
  have haf : assocFind conditionMultipliers "Near Mint".toList = some 1 := by rfl
  simp only [parseCardLine, h, priceFor, haf, Option.map_some']
  norm_num [round2, charizardEntry, Card.mk.injEq]

/-- Concrete evaluation: a fragment carrying the full name, set and card
number of the Pikachu VMAX entry scores 9 and parses with confidence 9/5. -/
lemma parse_pikachu_vmax (r : ℚ) :
    parseCardLine r "Pikachu VMAX Vivid Voltage 044/185".toList =
      some { id := 2 + r, name := "Pikachu VMAX".toList,
             set := "Vivid Voltage".toList, number := "044/185".toList,
             condition := "Near Mint".toList, marketPrice := 85,
             ourOffer := 119/2, confidence := 9/5,
             originalText := "Pikachu VMAX Vivid Voltage 044/185".toList } := by
  have h : parseSelect "Pikachu VMAX Vivid Voltage 044/185".toList =
      some ("Pikachu VMAX Vivid Voltage 044/185".toList, pikachuVmaxEntry, 9,
        "Near Mint".toList) := by
    decide
  have haf : assocFind conditionMultipliers "Near Mint".toList = some 1 := by rfl
  simp only [parseCardLine, h, priceFor, haf, Option.map_some']
  norm_num [round2, pikachuVmaxEntry, Card.mk.injEq]

/-! Claim theorems. -/

/-- C1: evaluating the code at the claimed scenario.  The fragment
Charizard Base Set Near Mint is matched to the Charizard Base Set entry,
but because the keyword mint precedes near mint in CONDITIONS the code
assigns condition Mint and prices the card at 495.00 with offer 346.50,
not the NearMint, 450.00 and 315.00 the claim states. -/
theorem c1_charizard_near_mint_eval :
    parseCardLine 0 "Charizard Base Set Near Mint".toList =
      some { id := 1, name := "Charizard".toList, set := "Base Set".toList,
             number := "4/102".toList, condition := "Mint".toList,
             marketPrice := 495, ourOffer := 693/2, confidence := 6/5,
             originalText := "Charizard Base Set Near Mint".toList } := by
  have h : parseSelect "Charizard Base Set Near Mint".toList =
      some ("Charizard Base Set Near Mint".toList, charizardEntry, 6,
        "Mint".toList) := by
    decide
  have haf : assocFind conditionMultipliers "Mint".toList = some (11/10) := by rfl
  simp only [parseCardLine, h, priceFor, haf, Option.map_some']
  norm_num [round2, charizardEntry, Card.mk.injEq]

/-- C2: evaluating the code at a failing input.  The first key of the
CONDITIONS table is mint, so a text containing the phrase near mint is
normalized to Mint, contradicting the claim that longest phrases are
checked first and near mint always yields NearMint. -/
theorem c2_near_mint_shadowed_eval :
    CONDITIONS.head? = some ("mint".toList, "Mint".toList)
    ∧ containsSub (lowerS "Charizard Near Mint".toList) "near mint".toList = true
    ∧ extractCondition (lowerS "Charizard Near Mint".toList) = "Mint".toList := by
  decide

/-- C3: the selection of the matcher equals the specification rule, for
every scoring function (hence every fragment) and every catalog: the first
entry attaining the maximum score is selected when the maximum is at least
2; and when every entry of the catalog scores below 2 the parse fails for
every random draw and the fragment is reported in the unmatched output. -/
theorem c3_selection_rule :
    (∀ (cat : List Entry) (f : Entry → Nat),
        matchSelect cat f = specFirstArgmax cat f)
    ∧ (∀ (rand : Nat → ℚ) (lines : List Str) (l : Str),
        l ∈ lines →
        (∀ e ∈ MOCK_CARD_DATABASE,
          entryScore (lowerS (trimS l)) (findNumber (trimS l)) e < 2) →
        (∀ r : ℚ, parseCardLine r l = none)
        ∧ trimS l ∈ (POSTprocess rand lines).2) := by
  constructor
  · exact matchSelect_eq_spec
  · intro rand lines l hmem hlow
    have hsel := parseSelect_none_of_low l hlow
    constructor
    · intro r; unfold parseCardLine; rw [hsel]
    · exact processLines_unmatched_mem rand 0 lines l hmem hsel

/-- C3 witness: the fragment random unrelated text xyz scores 0 against
every entry, parses to nothing and lands in the unmatched output. -/
theorem c3_witness :
    parseCardLine 0 "random unrelated text xyz".toList = none
    ∧ trimS "random unrelated text xyz".toList ∈
        (POSTprocess (fun _ => 0) ["random unrelated text xyz".toList]).2 := by
  have h := c3_selection_rule.2 (fun _ => 0)
    ["random unrelated text xyz".toList] "random unrelated text xyz".toList
    (by decide) (by decide)
  exact ⟨h.1 0, h.2⟩

/-- C4: every parsed card is priced from the entry the matcher selected for
its line: that entry is in the catalog, it was returned by the selection
stage for this very line together with the condition recorded on the card,
and the card carries its name, set and number; the market price is the
half-up cent rounding of that entry price times the condition multiplier,
and the offer equals the rounding of 70 percent of that already-rounded
condition price, as the claim states. -/
theorem c4_offer_invariant :
    ∀ (r : ℚ) (line : Str) (c : Card), parseCardLine r line = some c →
      ∃ e m, e ∈ MOCK_CARD_DATABASE
        ∧ (∃ s, parseSelect line = some (trimS line, e, s, c.condition))
        ∧ c.name = e.name ∧ c.set = e.set ∧ c.number = e.number
        ∧ assocFind conditionMultipliers c.condition = some m
        ∧ c.marketPrice = round2 (e.marketPrice * m)
        ∧ c.ourOffer = round2 (round2 (e.marketPrice * m) * (7/10)) := by
  intro r line c h
  obtain ⟨t, e, s, cond, mp, off, hps, hpf, hc⟩ := parseCardLine_some_inv h
  obtain ⟨m, haf, hmp, hoff⟩ := priceFor_some hpf
  obtain ⟨ht, -, hsb, -, -⟩ := parseSelect_some hps
  have hmem : e ∈ MOCK_CARD_DATABASE := by
    rcases scanBest_fst_mem _ MOCK_CARD_DATABASE none 0 e hsb with hm | hx
    · exact hm
    · exact absurd hx (by simp)
  have hmv : m ∈ conditionMultipliers.map Prod.snd := assocFind_val_mem _ cond m haf
  subst hc
  subst ht
  refine ⟨e, m, hmem, ⟨s, hps⟩, rfl, rfl, rfl, haf, hmp, ?_⟩
  rw [hoff, round_before_or_after e hmem m hmv]

/-- C4 witness: the parse of Charizard Base Set prices the card from the
Charizard entry itself, selected for that line at the default NearMint
condition, with marketPrice 450 and offer 315. -/
theorem c4_witness :
    ∃ e m, e ∈ MOCK_CARD_DATABASE
      ∧ (∃ s, parseSelect "Charizard Base Set".toList
          = some (trimS "Charizard Base Set".toList, e, s, "Near Mint".toList))
      ∧ "Charizard".toList = e.name ∧ "Base Set".toList = e.set
      ∧ "4/102".toList = e.number
      ∧ assocFind conditionMultipliers "Near Mint".toList = some m
      ∧ (450 : ℚ) = round2 (e.marketPrice * m)
      ∧ (315 : ℚ) = round2 (round2 (e.marketPrice * m) * (7/10)) :=
  c4_offer_invariant 0 "Charizard Base Set".toList
    { id := 1 + 0, name := "Charizard".toList, set := "Base Set".toList,
      number := "4/102".toList, condition := "Near Mint".toList,
      marketPrice := 450, ourOffer := 315, confidence := 6/5,
      originalText := "Charizard Base Set".toList }
    (parse_charizard_base_set 0)

/-- C5 counterexample: the claimed formula awards the known-name bonus on
allow-list membership, but the code awards it on substring containment: for
the extracted name Charizard VMAX alone the code returns 0.7 while the
claimed formula gives 0.5. -/
theorem c5_member_counterexample :
    calculateConfidence (some "Charizard VMAX".toList) none none
      ≠ claimConfidenceMember (some "Charizard VMAX".toList) none none := by
  have h1 : truthy (some "Charizard VMAX".toList) = true := by decide
  have h2 : (knownPokemon.any fun p =>
      containsSub (lowerS ((some "Charizard VMAX".toList).getD [])) p) = true := by
    decide
  have h3 : ¬ lowerS ((some "Charizard VMAX".toList).getD []) ∈ knownPokemon := by
    decide
  have h4 : truthy (none : Option Str) = false := rfl
  simp only [calculateConfidence, claimConfidenceMember, h1, h2, h3, h4,
    if_true, if_false, Bool.false_eq_true, and_false, false_and, and_true, true_and,
    if_neg, ite_true, ite_false]
  norm_num

/-- C5 amended: the estimator equals the additive capped formula whose
known-name bonus tests substring containment of an allow-list entry in the
lowercased name; it always lies between 0 and 1; and the Charizard VMAX,
Champions Path, 74/73 scenario yields exactly 1. -/
theorem c5_confidence_amended :
    (∀ cardName setName cardNumber : Option Str,
        calculateConfidence cardName setName cardNumber
            = claimConfidenceContain cardName setName cardNumber
        ∧ 0 ≤ calculateConfidence cardName setName cardNumber
        ∧ calculateConfidence cardName setName cardNumber ≤ 1)
    ∧ calculateConfidence (some "Charizard VMAX".toList)
        (some "Champion\x27s Path".toList) (some "74/73".toList) = 1 := by
  constructor
  · intro cn sn num
    refine ⟨?_, ?_, ?_⟩
    · simp only [calculateConfidence, claimConfidenceContain]
      split_ifs <;> simp_all
    · simp only [calculateConfidence]
      rw [le_min_iff]
      constructor
      · split_ifs <;> norm_num
      · norm_num
    · exact min_le_right _ _
  · have h1 : truthy (some "Charizard VMAX".toList) = true := by decide
    have h2 : (knownPokemon.any fun p =>
        containsSub (lowerS ((some "Charizard VMAX".toList).getD [])) p) = true := by
      decide
    have h3 : truthy (some "Champion\x27s Path".toList) = true := by decide
    have h4 : truthy (some "74/73".toList) = true := by decide
    have h5 : containsSub ((some "74/73".toList).getD []) ['/'] = true := by decide
    simp only [calculateConfidence, h1, h2, h3, h4, h5, if_true]
    norm_num

/-- C6 counterexample: two runs of the loop on the same single-fragment
input with different Math.random draws disagree, because the id of a
matched card carries the random draw. -/
theorem c6_id_randomness_counterexample :
    POSTprocess (fun _ => 0) ["Charizard Base Set".toList]
      ≠ POSTprocess (fun _ => 1) ["Charizard Base Set".toList] := by
  intro heq
  have h0 := parse_charizard_base_set 0
  have h1 := parse_charizard_base_set 1
  simp only [POSTprocess, processLines, h0, h1, Prod.mk.injEq, List.cons.injEq,
    Card.mk.injEq, and_true, true_and] at heq
  norm_num at heq

/-- C6 amended: processing is deterministic except for the id fields of the
matched cards: for every two random streams, the two runs agree on the
unmatched output and on every field of every matched card other than id. -/
theorem c6_process_deterministic_mod_id :
    ∀ (rand1 rand2 : Nat → ℚ) (lines : List Str),
      (POSTprocess rand1 lines).1.map stripId
          = (POSTprocess rand2 lines).1.map stripId
      ∧ (POSTprocess rand1 lines).2 = (POSTprocess rand2 lines).2 :=
  fun rand1 rand2 lines => processLines_strip rand1 rand2 0 0 lines

/-- C7 counterexample: the condition Mint is not in the supported-condition
list of the Charizard entry, yet pricing that entry at Mint succeeds with
495.00 and offer 346.50 instead of failing as the claim states; the claim
that every entry supports all five conditions is likewise false. -/
theorem c7_pricer_counterexample :
    "Mint".toList ∉ charizardEntry.variants
    ∧ priceFor charizardEntry "Mint".toList = some (495, 693/2) := by
  constructor
  · decide
  · have haf : assocFind conditionMultipliers "Mint".toList = some (11/10) := by rfl
    simp only [priceFor, haf, Option.map_some', Option.some.injEq, Prod.mk.injEq]
    norm_num [round2, charizardEntry]

/-- C7 amended: the pricer never consults the supported-condition list and
succeeds for every condition the normalizer can produce; every current
catalog entry lists exactly the four conditions NearMint, LightlyPlayed,
ModeratelyPlayed and HeavilyPlayed, so Mint is supported by no entry. -/
theorem c7_pricer_amended :
    (∀ e ∈ MOCK_CARD_DATABASE,
        e.variants = ["Near Mint".toList, "Lightly Played".toList,
          "Moderately Played".toList, "Heavily Played".toList]
        ∧ "Mint".toList ∉ e.variants)
    ∧ (∀ (e : Entry), ∀ c ∈ "Near Mint".toList :: CONDITIONS.map Prod.snd,
        (priceFor e c).isSome = true) := by
  constructor
  · decide
  · intro e c hc
    exact priceFor_isSome e c hc

/-- C7 witness: the Charizard entry lists four conditions without Mint, and
pricing it at Mint succeeds. -/
theorem c7_witness :
    (charizardEntry.variants = ["Near Mint".toList, "Lightly Played".toList,
        "Moderately Played".toList, "Heavily Played".toList]
      ∧ "Mint".toList ∉ charizardEntry.variants)
    ∧ (priceFor charizardEntry "Mint".toList).isSome = true :=
  ⟨c7_pricer_amended.1 charizardEntry (by decide),
   c7_pricer_amended.2 charizardEntry "Mint".toList (by decide)⟩

/-- C8: the loop partitions its input: the source texts of the matched
cards are exactly the trimmed lines whose selection succeeds, in input
order; the unmatched output is exactly the trimmed lines whose selection
fails, in input order; and the two output lengths add up to the input
length, so each fragment lands in exactly one side. -/
theorem c8_partition_preserves_order :
    ∀ (rand : Nat → ℚ) (lines : List Str),
      (POSTprocess rand lines).1.map Card.originalText
          = (lines.filter fun l => (parseSelect l).isSome).map trimS
      ∧ (POSTprocess rand lines).2
          = (lines.filter fun l => (parseSelect l).isNone).map trimS
      ∧ (POSTprocess rand lines).1.length + (POSTprocess rand lines).2.length
          = lines.length := by
  intro rand lines
  obtain ⟨h1, h2⟩ := processLines_eq rand 0 lines
  simp only [POSTprocess]
  refine ⟨h1, h2, ?_⟩
  have hl1 : (processLines rand 0 lines).1.length
      = (lines.filter fun l => (parseSelect l).isSome).length := by
    rw [← List.length_map (processLines rand 0 lines).1 Card.originalText, h1,
      List.length_map]
  have hl2 : (processLines rand 0 lines).2.length
      = (lines.filter fun l => (parseSelect l).isNone).length := by
    rw [h2, List.length_map]
  rw [hl1, hl2, filter_lengths]

/-- C9: for every entry of the current catalog, the fragment made of the
entry name, a space and the entry set is matched to that entry itself with
score at least 5. -/
theorem c9_full_name_set_matches_self :
    ∀ e ∈ MOCK_CARD_DATABASE,
      matchSelect MOCK_CARD_DATABASE
          (entryScore (lowerS (trimS (e.name ++ spaceChar :: e.set)))
            (findNumber (trimS (e.name ++ spaceChar :: e.set)))) = some e
      ∧ 5 ≤ (scanBest (entryScore (lowerS (trimS (e.name ++ spaceChar :: e.set)))
            (findNumber (trimS (e.name ++ spaceChar :: e.set))))
          MOCK_CARD_DATABASE (none, 0)).2 := by
  decide

/-- C9 witness: the fragment Charizard Base Set is matched to the Charizard
entry with score at least 5. -/
theorem c9_witness :
    matchSelect MOCK_CARD_DATABASE
        (entryScore (lowerS (trimS (charizardEntry.name ++ spaceChar :: charizardEntry.set)))
          (findNumber (trimS (charizardEntry.name ++ spaceChar :: charizardEntry.set))))
        = some charizardEntry
    ∧ 5 ≤ (scanBest (entryScore (lowerS (trimS (charizardEntry.name ++ spaceChar :: charizardEntry.set)))
          (findNumber (trimS (charizardEntry.name ++ spaceChar :: charizardEntry.set))))
        MOCK_CARD_DATABASE (none, 0)).2 :=
  c9_full_name_set_matches_self charizardEntry (by decide)

/-- C10: on the text-line path, the confidence of every parsed card is its
integer match score divided by 5 with no cap, and the fragment Pikachu VMAX
Vivid Voltage 044/185 scores 9, so its reported confidence 9/5 exceeds
1. -/
theorem c10_confidence_score_over_five :
    (∀ (r : ℚ) (l : Str) (c : Card), parseCardLine r l = some c →
        c.confidence = ((scanBest (entryScore (lowerS (trimS l)) (findNumber (trimS l)))
            MOCK_CARD_DATABASE (none, 0)).2 : ℚ) / 5)
    ∧ ∃ c : Card,
        parseCardLine 0 "Pikachu VMAX Vivid Voltage 044/185".toList = some c
        ∧ c.confidence = 9/5 ∧ 1 < c.confidence := by
  constructor
  · intro r l c h
    obtain ⟨t, e, s, cond, mp, off, hps, hpf, hc⟩ := parseCardLine_some_inv h
    obtain ⟨-, -, -, hs, -⟩ := parseSelect_some hps
    subst hc
    dsimp only
    rw [hs]
  · exact ⟨_, parse_pikachu_vmax 0, by norm_num, by norm_num⟩

/-- C10 witness: the parsed Pikachu VMAX card realizes the score-over-five
confidence equation at a concrete input. -/
theorem c10_witness :
    Card.confidence
        { id := 2 + 0, name := "Pikachu VMAX".toList,
          set := "Vivid Voltage".toList, number := "044/185".toList,
          condition := "Near Mint".toList, marketPrice := 85,
          ourOffer := 119/2, confidence := 9/5,
          originalText := "Pikachu VMAX Vivid Voltage 044/185".toList }
      = ((scanBest (entryScore
            (lowerS (trimS "Pikachu VMAX Vivid Voltage 044/185".toList))
            (findNumber (trimS "Pikachu VMAX Vivid Voltage 044/185".toList)))
          MOCK_CARD_DATABASE (none, 0)).2 : ℚ) / 5 :=
  c10_confidence_score_over_five.1 0 "Pikachu VMAX Vivid Voltage 044/185".toList
    { id := 2 + 0, name := "Pikachu VMAX".toList,
      set := "Vivid Voltage".toList, number := "044/185".toList,
      condition := "Near Mint".toList, marketPrice := 85,
      ourOffer := 119/2, confidence := 9/5,
      originalText := "Pikachu VMAX Vivid Voltage 044/185".toList }
    (parse_pikachu_vmax 0)

end Andookie
